import Mathlib

/-!
# Verification of `obspy/imaging/maps.py`

Shallow embedding in Lean 4 of the map-plotting module of obspy
(`src/obspy/imaging/maps.py`): the local-projection center/extent
heuristic, the nice-tick heuristic `linspace2`, the colorbar-visibility
decision, the color-axis (timestamp) normalization, and the renderer /
projection dispatch error behaviour.

Numbers are modelled as exact rationals (`ℚ`): the Python code computes in
IEEE doubles, but every claim below is settled at inputs where the float
computation is exact, so the rational semantics is the ideal semantics of
the source expressions.  Python's `min`/`max` over a nonempty sequence is
modelled by a fold (totalized with a default on `[]`, a case where the
Python code raises); Python's float `%` is modelled by `pymod`;
`future.builtins.round` (round-half-to-even, Python-3 semantics) is
modelled by `pyRound`.
-/

namespace ObspyMaps

/-- Python `min(seq)` over a nonempty list of floats (`0` on `[]`, where
Python raises `ValueError`). -/
def listMin : List ℚ → ℚ
  | [] => 0
  | x :: xs => xs.foldl min x

/-- Python `max(seq)` over a nonempty list of floats (`0` on `[]`, where
Python raises `ValueError`). -/
def listMax : List ℚ → ℚ
  | [] => 0
  | x :: xs => xs.foldl max x

/-- Python / numpy float modulo: the result has the sign of the divisor,
`x % m = x - m * floor(x / m)`. -/
def pymod (x m : ℚ) : ℚ := x - m * (⌊x / m⌋ : ℤ)

/-- The antimeridian-straddle test of the `'local'` branch
(`min(lons) < -150 and max(lons) > 150`, lines 196 and 449). -/
def straddles (lons : List ℚ) : Bool :=
  decide (listMin lons < -150) && decide (listMax lons > 150)

/-- Lines 196–201 / 449–454: the `(min_lons, max_lons)` pair used by the
`'local'` branch of both renderers; when the point set straddles the
antimeridian the bounds are recomputed modulo 360. -/
def local_lon_bounds (lons : List ℚ) : ℚ × ℚ :=
  if straddles lons then
    (listMin (lons.map (fun x => pymod x 360)),
     listMax (lons.map (fun x => pymod x 360)))
  else
    (listMin lons, listMax lons)

/-- Lines 203–205 / 456–458: `lon_0 = max_lons / 2. + min_lons / 2.`,
wrapped back below 180. -/
def local_lon_0 (lons : List ℚ) : ℚ :=
  let mn := (local_lon_bounds lons).1
  let mx := (local_lon_bounds lons).2
  let lon_0 := mx / 2 + mn / 2
  if lon_0 > 180 then lon_0 - 360 else lon_0

/-- Line 202 / 455: `lat_0 = max(lats) / 2. + min(lats) / 2.`. -/
def local_lat_0 (lats : List ℚ) : ℚ := listMax lats / 2 + listMin lats / 2

/-! ## The nice-tick heuristic `linspace2` (lines 234–249 and 537–552)

`linspace2(val1, val2, N)` in the source first computes
`round_pos = int(round(-np.log10(1. * dval / N)))`.  The logarithm is
transcendental, so the embedding takes `round_pos` as an explicit
argument constrained by the predicate `negLog10RoundsTo`, the exact
characterisation of that expression: for rational `x > 0`, `-log10 x` is
never exactly a half-integer (that would make `x` an odd power of
`√10`, which is irrational), hence
`r = round(-log10 x)  ↔  r - 1/2 < -log10 x < r + 1/2
                      ↔  10^(-2r-1) < x² < 10^(-2r+1)`,
independent of the tie-breaking rule of `round`. -/

/-- `r` is the result of Python `int(round(-np.log10(x)))` for the
(positive rational) argument `x`. -/
def negLog10RoundsTo (x : ℚ) (r : ℤ) : Prop :=
  0 < x ∧ (10 : ℚ) ^ (-(2 * r) - 1) < x ^ 2 ∧ x ^ 2 < (10 : ℚ) ^ (-(2 * r) + 1)

/-- Python-3 `round(x)` (also `future.builtins.round`, in force in the
source via `from future.builtins import *`): round half to even. -/
def pyRound (x : ℚ) : ℤ :=
  if x - ⌊x⌋ < 1 / 2 then ⌊x⌋
  else if 1 / 2 < x - ⌊x⌋ then ⌊x⌋ + 1
  else if 2 ∣ ⌊x⌋ then ⌊x⌋ else ⌊x⌋ + 1

/-- Python-3 `round(x, n)` for `n ≥ 0` digits: round half to even at the
`n`-th decimal place. -/
def pyRoundTo (x : ℚ) (n : ℕ) : ℚ :=
  (pyRound (x * 10 ^ n) : ℚ) / 10 ^ n

/-- `np.linspace(a, b, num)`: `num` evenly spaced values from `a` to `b`
inclusive (`a + i * (b - a) / (num - 1)`). -/
def npLinspace (a b : ℚ) (num : ℕ) : List ℚ :=
  (List.range num).map fun i : ℕ => a + (i : ℚ) * (b - a) / ((num : ℚ) - 1)

/-- Lines 238–245 / 541–548: the tick delta of `linspace2`.  The
`round_pos < 0` branch fakes negative rounding through an explicit
integer factor `10^|round_pos|`; the other branch uses two-argument
`round`. -/
def linspace2_delta (val1 val2 : ℚ) (N : ℕ) (round_pos : ℤ) : ℚ :=
  let dval := val2 - val1
  if round_pos < 0 then
    let factor : ℚ := (10 : ℚ) ^ round_pos.natAbs
    (pyRound (2 * dval / N / factor) : ℚ) * factor / 2
  else
    pyRoundTo (2 * dval / N) round_pos.toNat / 2

/-- Lines 234–249 / 537–552: `linspace2(val1, val2, N)`, with the value
`round_pos = int(round(-np.log10(1. * dval / N)))` passed explicitly
(see `negLog10RoundsTo`).  The lower bound is snapped up and the upper
bound down to multiples of the delta, and
`(new_val2 - new_val1) / delta + 1` evenly spaced values are returned
(`np.linspace` truncates its `num` argument to an integer). -/
def linspace2 (val1 val2 : ℚ) (N : ℕ) (round_pos : ℤ) : List ℚ :=
  let delta := linspace2_delta val1 val2 N round_pos
  let new_val1 : ℚ := (⌈val1 / delta⌉ : ℤ) * delta
  let new_val2 : ℚ := (⌊val2 / delta⌋ : ℤ) * delta
  npLinspace new_val1 new_val2 (⌊(new_val2 - new_val1) / delta + 1⌋).toNat

lemma pyRound_five_halves : pyRound (5 / 2) = 2 := by
  have hf : ⌊(5 / 2 : ℚ)⌋ = 2 := by
    rw [Int.floor_eq_iff] ; norm_num
  rw [pyRound, hf] ; norm_num

lemma linspace2_delta_0_100_8 : linspace2_delta 0 100 8 (-1) = 10 := by
  have harg : 2 * ((100 : ℚ) - 0) / ((8 : ℕ) : ℚ) / (10 : ℚ) ^ (-1 : ℤ).natAbs
      = 5 / 2 := by norm_num
  rw [linspace2_delta]
  rw [if_pos (by norm_num : (-1 : ℤ) < 0)]
  simp only [harg, pyRound_five_halves]
  norm_num

/-- Closed form of `linspace2` when the snapped bounds are in order: the
result is the list of consecutive integer multiples `c1·δ, …, c2·δ` of
the tick delta `δ`. -/
lemma linspace2_closed_form (val1 val2 : ℚ) (N : ℕ) (r : ℤ) (δ : ℚ) (c1 c2 : ℤ)
    (hδ : linspace2_delta val1 val2 N r = δ) (hδ0 : 0 < δ)
    (hc1 : ⌈val1 / δ⌉ = c1) (hc2 : ⌊val2 / δ⌋ = c2) (hle : c1 ≤ c2) :
    linspace2 val1 val2 N r =
      (List.range ((c2 - c1).toNat + 1)).map fun i : ℕ => ((c1 + (i : ℤ) : ℤ) : ℚ) * δ := by
  have hδne : δ ≠ 0 := ne_of_gt hδ0
  rw [linspace2, hδ, hc1, hc2]
  have hdiff : ((c2 : ℚ) * δ - (c1 : ℚ) * δ) / δ = ((c2 - c1 : ℤ) : ℚ) := by
    field_simp
    ring
  have hnum : (⌊((c2 : ℚ) * δ - (c1 : ℚ) * δ) / δ + 1⌋).toNat = (c2 - c1).toNat + 1 := by
    rw [hdiff]
    have : ((c2 - c1 : ℤ) : ℚ) + 1 = ((c2 - c1 + 1 : ℤ) : ℚ) := by push_cast ; ring
    rw [this, Int.floor_intCast]
    omega
  rw [hnum, npLinspace]
  apply List.map_congr_left
  intro i hi
  rw [List.mem_range] at hi
  rcases Nat.eq_zero_or_pos ((c2 - c1).toNat) with hk | hk
  · have hi0 : i = 0 := by omega
    have hcc : c1 = c2 := by omega
    subst hi0
    subst hcc
    simp
  · have hkq : (((c2 - c1).toNat + 1 : ℕ) : ℚ) - 1 = ((c2 - c1).toNat : ℚ) := by
      push_cast ; ring
    rw [hkq]
    have hc21 : ((c2 - c1).toNat : ℚ) = ((c2 : ℚ) - c1) := by
      have h' : ((c2 - c1).toNat : ℤ) = c2 - c1 := by omega
      calc ((c2 - c1).toNat : ℚ) = (((c2 - c1).toNat : ℤ) : ℚ) := by norm_cast
        _ = ((c2 - c1 : ℤ) : ℚ) := by rw [h']
        _ = (c2 : ℚ) - c1 := by push_cast ; ring
    have hkne : ((c2 : ℚ) - c1) ≠ 0 := by
      rw [← hc21]
      exact Nat.cast_ne_zero.mpr (by omega)
    rw [hc21]
    field_simp
    ring

lemma linspace2_0_100_8_eval :
    linspace2 0 100 8 (-1) = [0, 10, 20, 30, 40, 50, 60, 70, 80, 90, 100] := by
  have hc2 : ⌊(100 : ℚ) / 10⌋ = 10 := by
    rw [Int.floor_eq_iff] ; norm_num
  have hc1 : ⌈(0 : ℚ) / 10⌉ = 0 := by norm_num
  have h := linspace2_closed_form 0 100 8 (-1) 10 0 10 linspace2_delta_0_100_8
    (by norm_num) hc1 hc2 (by norm_num)
  rw [h]
  have ht : ((10 : ℤ) - 0).toNat = 10 := by omega
  rw [ht]
  norm_num [List.range_succ]

/-- C1 (counterexample): the claim asserts that `linspace2(0, 100, 8)`
returns between 6 and 10 values.  In fact the call returns 11 values:
`round_pos = round(-log10(100/8)) = -1`, and `round(2·100/8/10) =
round(2.5) = 2` under the round-half-to-even semantics of
`future.builtins.round` that the module imports, giving delta `10` and
the 11 ticks `0, 10, …, 100`. -/
theorem linspace2_0_100_8_count_is_eleven :
    negLog10RoundsTo ((100 - 0) / 8) (-1) ∧
    (linspace2 0 100 8 (-1)).length = 11 ∧
    ¬(6 ≤ (linspace2 0 100 8 (-1)).length ∧
      (linspace2 0 100 8 (-1)).length ≤ 10) := by
  refine ⟨⟨by norm_num, by norm_num, by norm_num⟩, ?_, ?_⟩
  · rw [linspace2_0_100_8_eval]
    rfl
  · rw [linspace2_0_100_8_eval]
    intro hlen
    simp at hlen

/-- C1 (amended): `linspace2(0, 100, 8)` (with
`round_pos = round(-log10(100/8)) = -1`, see `negLog10RoundsTo`) returns
the strictly increasing sequence `0, 10, …, 100`; every element is an
integer multiple of the single common delta `10`, every element (in
particular the first and the last) lies within `[0, 100]`, and the
number of elements is 11 — within 3 of the requested 8, not within 2 as
claimed. -/
theorem linspace2_0_100_8_nice_ticks :
    negLog10RoundsTo ((100 - 0) / 8) (-1) ∧
    linspace2 0 100 8 (-1) = [0, 10, 20, 30, 40, 50, 60, 70, 80, 90, 100] ∧
    List.Pairwise (· < ·) (linspace2 0 100 8 (-1)) ∧
    (∃ δ : ℚ, 0 < δ ∧ ∀ x ∈ linspace2 0 100 8 (-1), ∃ k : ℤ, x = (k : ℚ) * δ) ∧
    (∀ x ∈ linspace2 0 100 8 (-1), 0 ≤ x ∧ x ≤ 100) ∧
    (linspace2 0 100 8 (-1)).length = 11 := by
  refine ⟨⟨by norm_num, by norm_num, by norm_num⟩, linspace2_0_100_8_eval, ?_, ?_, ?_, ?_⟩
  · rw [linspace2_0_100_8_eval]
    norm_num [List.pairwise_cons]
  · refine ⟨10, by norm_num, ?_⟩
    intro x hx
    rw [linspace2_0_100_8_eval] at hx
    fin_cases hx
    · exact ⟨0, by norm_num⟩
    · exact ⟨1, by norm_num⟩
    · exact ⟨2, by norm_num⟩
    · exact ⟨3, by norm_num⟩
    · exact ⟨4, by norm_num⟩
    · exact ⟨5, by norm_num⟩
    · exact ⟨6, by norm_num⟩
    · exact ⟨7, by norm_num⟩
    · exact ⟨8, by norm_num⟩
    · exact ⟨9, by norm_num⟩
    · exact ⟨10, by norm_num⟩
  · intro x hx
    rw [linspace2_0_100_8_eval] at hx
    fin_cases hx <;> norm_num
  · rw [linspace2_0_100_8_eval]
    rfl

/-! ## Helper lemmas about the `min`/`max` folds -/

lemma foldl_min_le_init (xs : List ℚ) : ∀ x : ℚ, xs.foldl min x ≤ x := by
  induction xs with
  | nil => intro x ; simp
  | cons y ys ih =>
    intro x
    simp only [List.foldl_cons]
    exact (ih (min x y)).trans (min_le_left x y)

lemma foldl_min_le_mem (xs : List ℚ) : ∀ x : ℚ, ∀ y ∈ xs, xs.foldl min x ≤ y := by
  induction xs with
  | nil => simp
  | cons z zs ih =>
    intro x y hy
    simp only [List.foldl_cons]
    rcases List.mem_cons.mp hy with rfl | hy'
    · exact (foldl_min_le_init zs (min x y)).trans (min_le_right x y)
    · exact ih (min x z) y hy'

lemma foldl_min_eq_or_mem (xs : List ℚ) : ∀ x : ℚ,
    xs.foldl min x = x ∨ xs.foldl min x ∈ xs := by
  induction xs with
  | nil =>
    intro x
    left
    rfl
  | cons y ys ih =>
    intro x
    simp only [List.foldl_cons]
    rcases ih (min x y) with h | h
    · rcases le_total x y with hxy | hxy
      · left
        rw [h, min_eq_left hxy]
      · right
        rw [h, min_eq_right hxy]
        exact List.mem_cons_self y ys
    · right
      exact List.mem_cons_of_mem _ h

lemma foldl_max_init_le (xs : List ℚ) : ∀ x : ℚ, x ≤ xs.foldl max x := by
  induction xs with
  | nil => intro x ; simp
  | cons y ys ih =>
    intro x
    simp only [List.foldl_cons]
    exact (le_max_left x y).trans (ih (max x y))

lemma foldl_max_mem_le (xs : List ℚ) : ∀ x : ℚ, ∀ y ∈ xs, y ≤ xs.foldl max x := by
  induction xs with
  | nil => simp
  | cons z zs ih =>
    intro x y hy
    simp only [List.foldl_cons]
    rcases List.mem_cons.mp hy with rfl | hy'
    · exact (le_max_right x y).trans (foldl_max_init_le zs (max x y))
    · exact ih (max x z) y hy'

lemma foldl_max_eq_or_mem (xs : List ℚ) : ∀ x : ℚ,
    xs.foldl max x = x ∨ xs.foldl max x ∈ xs := by
  induction xs with
  | nil =>
    intro x
    left
    rfl
  | cons y ys ih =>
    intro x
    simp only [List.foldl_cons]
    rcases ih (max x y) with h | h
    · rcases le_total y x with hxy | hxy
      · left
        rw [h, max_eq_left hxy]
      · right
        rw [h, max_eq_right hxy]
        exact List.mem_cons_self y ys
    · right
      exact List.mem_cons_of_mem _ h

lemma listMin_le (l : List ℚ) (y : ℚ) (hy : y ∈ l) : listMin l ≤ y := by
  match l with
  | x :: xs =>
    rw [listMin]
    rcases List.mem_cons.mp hy with rfl | hy'
    · exact foldl_min_le_init xs y
    · exact foldl_min_le_mem xs x y hy'

lemma le_listMax (l : List ℚ) (y : ℚ) (hy : y ∈ l) : y ≤ listMax l := by
  match l with
  | x :: xs =>
    rw [listMax]
    rcases List.mem_cons.mp hy with rfl | hy'
    · exact foldl_max_init_le xs y
    · exact foldl_max_mem_le xs x y hy'

lemma listMin_mem (l : List ℚ) (h : l ≠ []) : listMin l ∈ l := by
  match l with
  | x :: xs =>
    rw [listMin]
    rcases foldl_min_eq_or_mem xs x with h' | h'
    · rw [h']
      exact List.mem_cons_self x xs
    · exact List.mem_cons_of_mem _ h'

lemma listMax_mem (l : List ℚ) (h : l ≠ []) : listMax l ∈ l := by
  match l with
  | x :: xs =>
    rw [listMax]
    rcases foldl_max_eq_or_mem xs x with h' | h'
    · rw [h']
      exact List.mem_cons_self x xs
    · exact List.mem_cons_of_mem _ h'

lemma listMin_le_listMax (l : List ℚ) (h : l ≠ []) : listMin l ≤ listMax l :=
  (listMin_le l _ (listMax_mem l h))

/-! ## C2 and C3: the `'local'` center longitude -/

/-- C2: for the point set `lons = [-179, 179]`, which straddles the
antimeridian (`min < -150` and `max > 150`), both renderers recompute the
longitude bounds modulo 360 (giving 181 and 179) before taking the
midpoint, so the computed center longitude is exactly 180 — near ±180,
not near 0 (identical code at lines 196–205 and 449–458). -/
theorem local_center_lon_antimeridian :
    straddles [-179, 179] = true ∧
    local_lon_0 [-179, 179] = 180 ∧
    ¬(-150 < local_lon_0 [-179, 179] ∧ local_lon_0 [-179, 179] < 150) := by
  have hstr : straddles [-179, 179] = true := by
    simp [straddles, listMin, listMax]
    norm_num [min_def, max_def]
  have hm1 : pymod (-179) 360 = 181 := by
    have h : ⌊(-179 : ℚ) / 360⌋ = -1 := by
      rw [Int.floor_eq_iff] ; norm_num
    rw [pymod, h]
    norm_num
  have hm2 : pymod 179 360 = 179 := by
    have h : ⌊(179 : ℚ) / 360⌋ = 0 := by
      rw [Int.floor_eq_iff] ; norm_num
    rw [pymod, h]
    norm_num
  have hval : local_lon_0 [-179, 179] = 180 := by
    rw [local_lon_0, local_lon_bounds, hstr]
    simp [listMin, listMax, hm1, hm2]
    norm_num [min_def, max_def]
  refine ⟨hstr, hval, ?_⟩
  rw [hval]
  norm_num

/-- C3: for every nonempty point set of valid longitudes (each in
`[-180, 180]`) with `min(lon) ≥ -150` or `max(lon) ≤ 150`, the
wraparound branch is not taken and the `'local'` center longitude of
both renderers is exactly `(max(lon) + min(lon)) / 2` (identical code at
lines 195–205 and 448–458). -/
theorem local_center_lon_no_wraparound (lons : List ℚ) (hne : lons ≠ [])
    (hdom : ∀ x ∈ lons, -180 ≤ x ∧ x ≤ 180)
    (h : -150 ≤ listMin lons ∨ listMax lons ≤ 150) :
    local_lon_0 lons = (listMax lons + listMin lons) / 2 := by
  have hstr : straddles lons = false := by
    rw [straddles]
    rcases h with h | h
    · simp [not_lt.mpr h]
    · simp [not_lt.mpr h]
  rw [local_lon_0, local_lon_bounds, hstr]
  have hmax : listMax lons ≤ 180 := (hdom _ (listMax_mem lons hne)).2
  have hmm : listMin lons ≤ listMax lons := listMin_le_listMax lons hne
  simp only [Bool.false_eq_true, if_false]
  rw [if_neg (by linarith)]
  ring

/-- Witness for C3 at the concrete point set `lons = [10, 20]`. -/
theorem local_center_lon_no_wraparound_witness :
    local_lon_0 [10, 20] = (listMax [10, 20] + listMin [10, 20]) / 2 :=
  local_center_lon_no_wraparound [10, 20] (by simp)
    (by
      intro x hx
      fin_cases hx <;> norm_num)
    (by
      left
      simp [listMin]
      norm_num [min_def])

/-! ## C4, C5, C9: the `'local'` footprint, margin and aspect adjustment -/

/-- Lines 459–467: the pre-aspect `(width, height)` footprint of the
`'local'` branch of `plot_cartopy`, in angular degrees: the lat/lon
ranges plus a 20% margin for two or more points, the fixed `5 × 2`
degree fallback for a single point. -/
def cartopy_local_size (lons lats : List ℚ) : ℚ × ℚ :=
  if 1 < lats.length then
    let height := listMax lats - listMin lats
    let width := (local_lon_bounds lons).2 - (local_lon_bounds lons).1
    let margin := (width + height) / 5
    (width + margin, height + margin)
  else
    (5, 2)

/-- Lines 208–216: the pre-aspect `(width, height)` footprint of the
`'local'` branch of `plot_basemap`: the same computation converted to
metres by the factors `deg2m_lat = 2π·6371·1000/360` and
`deg2m_lon = deg2m_lat · cos(lat_0·π/180)`.  The factors are
transcendental, so they are abstract parameters here. -/
def basemap_local_size (deg2m_lon deg2m_lat : ℚ) (lons lats : List ℚ) : ℚ × ℚ :=
  if 1 < lats.length then
    let height := (listMax lats - listMin lats) * deg2m_lat
    let width := ((local_lon_bounds lons).2 - (local_lon_bounds lons).1) * deg2m_lon
    let margin := (width + height) / 5
    (width + margin, height + margin)
  else
    (5 * deg2m_lon, 2 * deg2m_lat)

/-- Lines 219–222 / 470–473: the target aspect ratio — the figure's
width/height ratio, multiplied by 1.2 when a colorbar is shown. -/
def effective_aspect (fig_aspect : ℚ) (show_cb : Bool) : ℚ :=
  if show_cb then fig_aspect * (6 / 5) else fig_aspect

/-- Lines 223–226 / 474–477: the aspect adjustment applied to the
footprint.  `none` models the uncaught `ZeroDivisionError` that Python
raises at `width / height` when the footprint height is zero. -/
def aspect_adjust (aspect width height : ℚ) : Option (ℚ × ℚ) :=
  if height = 0 then none
  else if width / height < aspect then some (height * aspect, height)
  else some (width, width / aspect)

/-- The rectangle handed to `set_extent`. -/
structure Extent where
  lon_min : ℚ
  lon_max : ℚ
  lat_min : ℚ
  lat_max : ℚ
deriving DecidableEq

/-- Lines 448–477 and 517–519: the `'local'` map extent of
`plot_cartopy`: center `(lon_0, lat_0)`, footprint with margin, aspect
adjustment, then the box
`(lon_0 - width/2, lon_0 + width/2, lat_0 - height/2, lat_0 + height/2)`.
The `aspect` parameter is the figure ratio after the colorbar
correction (see `effective_aspect`). -/
def cartopy_local_extent (aspect : ℚ) (lons lats : List ℚ) : Option Extent :=
  let lat_0 := local_lat_0 lats
  let lon_0 := local_lon_0 lons
  let wh := cartopy_local_size lons lats
  (aspect_adjust aspect wh.1 wh.2).map fun wh' =>
    ⟨lon_0 - wh'.1 / 2, lon_0 + wh'.1 / 2, lat_0 - wh'.2 / 2, lat_0 + wh'.2 / 2⟩

lemma aspect_adjust_grows (a w h : ℚ) (ha : 0 < a) (hh : 0 < h) :
    ∃ w' h', aspect_adjust a w h = some (w', h') ∧ w ≤ w' ∧ h ≤ h' := by
  rw [aspect_adjust, if_neg hh.ne']
  by_cases hc : w / h < a
  · rw [if_pos hc]
    refine ⟨h * a, h, rfl, ?_, le_refl h⟩
    have := (div_lt_iff₀ hh).mp hc
    linarith
  · rw [if_neg hc]
    refine ⟨w, w / a, rfl, le_refl w, ?_⟩
    have hc' : a ≤ w / h := not_lt.mp hc
    rw [le_div_iff₀ ha]
    have := (le_div_iff₀ hh).mp hc'
    linarith

/-- Helper: the `'local'` center longitude when the wraparound branch is
not taken (shared by C3 and C4). -/
lemma local_lon_0_eq_midpoint (lons : List ℚ) (hne : lons ≠ [])
    (hstr : straddles lons = false) (hmax : listMax lons ≤ 180) :
    local_lon_0 lons = (listMax lons + listMin lons) / 2 := by
  rw [local_lon_0, local_lon_bounds, hstr]
  have hmm : listMin lons ≤ listMax lons := listMin_le_listMax lons hne
  simp only [Bool.false_eq_true, if_false]
  rw [if_neg (by linarith)]
  ring

/-- C4 (counterexample): for two coincident points — a point set with at
least two points that does not straddle the antimeridian — the claimed
containing box does not exist: the footprint degenerates to `0 × 0` and
`plot_cartopy` dies with an uncaught `ZeroDivisionError` at
`width / height` (modelled as `none`). -/
theorem cartopy_local_extent_coincident_fails :
    straddles [7, 7] = false ∧
    (2 ≤ ([30, 30] : List ℚ).length) ∧
    cartopy_local_extent (4 / 3) [7, 7] [30, 30] = none := by
  have hstr : straddles [7, 7] = false := by
    simp [straddles, listMin, listMax]
    norm_num [min_def]
  have hb : local_lon_bounds [7, 7] = (7, 7) := by
    rw [local_lon_bounds, hstr]
    simp [listMin, listMax]
  have hsize : cartopy_local_size [7, 7] [30, 30] = (0, 0) := by
    rw [cartopy_local_size, if_pos (by norm_num), hb]
    simp [listMin, listMax]
  refine ⟨hstr, by norm_num, ?_⟩
  rw [cartopy_local_extent, hsize]
  simp [aspect_adjust]

/-- C4 (amended): for every point set of two or more valid points that
does not straddle the antimeridian and is not entirely one coincident
point, the `'local'` box computed by `plot_cartopy` — center ± half the
footprint after the 20% margin and the aspect-ratio expansion — contains
every input (longitude, latitude) point. -/
theorem cartopy_local_extent_contains_points (aspect : ℚ) (lons lats : List ℚ)
    (ha : 0 < aspect) (hlen : 2 ≤ lats.length) (hpar : lons.length = lats.length)
    (hdom : ∀ x ∈ lons, -180 ≤ x ∧ x ≤ 180)
    (hstr : straddles lons = false)
    (hnd : listMin lons < listMax lons ∨ listMin lats < listMax lats) :
    ∃ e : Extent, cartopy_local_extent aspect lons lats = some e ∧
      (∀ x ∈ lons, e.lon_min ≤ x ∧ x ≤ e.lon_max) ∧
      (∀ y ∈ lats, e.lat_min ≤ y ∧ y ≤ e.lat_max) := by
  have hlatsne : lats ≠ [] := by
    intro h
    rw [h] at hlen
    simp at hlen
  have hlonsne : lons ≠ [] := by
    intro h
    rw [h] at hpar
    rw [List.length_nil] at hpar
    omega
  have hmm : listMin lons ≤ listMax lons := listMin_le_listMax lons hlonsne
  have hmml : listMin lats ≤ listMax lats := listMin_le_listMax lats hlatsne
  have hb : local_lon_bounds lons = (listMin lons, listMax lons) := by
    rw [local_lon_bounds, hstr]
    simp
  have hsize : cartopy_local_size lons lats =
      ((listMax lons - listMin lons) +
        ((listMax lons - listMin lons) + (listMax lats - listMin lats)) / 5,
       (listMax lats - listMin lats) +
        ((listMax lons - listMin lons) + (listMax lats - listMin lats)) / 5) := by
    rw [cartopy_local_size, if_pos (by omega : 1 < lats.length), hb]
  have hH : 0 < (listMax lats - listMin lats) +
      ((listMax lons - listMin lons) + (listMax lats - listMin lats)) / 5 := by
    rcases hnd with h | h <;> linarith
  obtain ⟨w', h', hadj, hw', hh'⟩ := aspect_adjust_grows aspect _ _ ha hH
  have hmax180 : listMax lons ≤ 180 := (hdom _ (listMax_mem lons hlonsne)).2
  have hlon0 := local_lon_0_eq_midpoint lons hlonsne hstr hmax180
  refine ⟨⟨local_lon_0 lons - w' / 2, local_lon_0 lons + w' / 2,
      local_lat_0 lats - h' / 2, local_lat_0 lats + h' / 2⟩, ?_, ?_, ?_⟩
  · rw [cartopy_local_extent, hsize]
    rw [hadj]
    rfl
  · intro x hx
    have hx1 : listMin lons ≤ x := listMin_le lons x hx
    have hx2 : x ≤ listMax lons := le_listMax lons x hx
    rw [hlon0]
    constructor <;> linarith
  · intro y hy
    have hy1 : listMin lats ≤ y := listMin_le lats y hy
    have hy2 : y ≤ listMax lats := le_listMax lats y hy
    rw [local_lat_0]
    constructor <;> linarith

/-- Witness for C4 at `lons = [0, 10]`, `lats = [40, 45]`, figure aspect
`4/3`. -/
theorem cartopy_local_extent_contains_points_witness :
    ∃ e : Extent, cartopy_local_extent (4 / 3) [0, 10] [40, 45] = some e ∧
      (∀ x ∈ ([0, 10] : List ℚ), e.lon_min ≤ x ∧ x ≤ e.lon_max) ∧
      (∀ y ∈ ([40, 45] : List ℚ), e.lat_min ≤ y ∧ y ≤ e.lat_max) :=
  cartopy_local_extent_contains_points (4 / 3) [0, 10] [40, 45]
    (by norm_num) (by norm_num) (by norm_num)
    (by
      intro x hx
      fin_cases hx <;> norm_num)
    (by
      simp [straddles, listMin, listMax])
    (by
      left
      simp [listMin, listMax])

/-- C5: for a single input point (`len(lats) == 1`) the `'local'`
footprint heuristic yields the fixed fallback — `height = 2.0`,
`width = 5.0` angular degrees in `plot_cartopy` (lines 459–467), the same
`2.0°`/`5.0°` scaled by the positive degree-to-metre factors in
`plot_basemap` (lines 208–216) — and never a zero-size box. -/
theorem single_point_fallback_footprint (lons lats : List ℚ)
    (deg2m_lon deg2m_lat : ℚ) (h1 : lats.length = 1)
    (hlon : 0 < deg2m_lon) (hlat : 0 < deg2m_lat) :
    cartopy_local_size lons lats = (5, 2) ∧
    basemap_local_size deg2m_lon deg2m_lat lons lats
      = (5 * deg2m_lon, 2 * deg2m_lat) ∧
    0 < (cartopy_local_size lons lats).1 ∧
    0 < (cartopy_local_size lons lats).2 ∧
    0 < (basemap_local_size deg2m_lon deg2m_lat lons lats).1 ∧
    0 < (basemap_local_size deg2m_lon deg2m_lat lons lats).2 := by
  have hnot : ¬ 1 < lats.length := by omega
  have hc : cartopy_local_size lons lats = (5, 2) := by
    rw [cartopy_local_size, if_neg hnot]
  have hb : basemap_local_size deg2m_lon deg2m_lat lons lats
      = (5 * deg2m_lon, 2 * deg2m_lat) := by
    rw [basemap_local_size, if_neg hnot]
  refine ⟨hc, hb, ?_, ?_, ?_, ?_⟩
  · rw [hc]
    norm_num
  · rw [hc]
    norm_num
  · rw [hb]
    simp only []
    positivity
  · rw [hb]
    simp only []
    positivity

/-- Witness for C5 at the single point `(7, 7)` with unit conversion
factors. -/
theorem single_point_fallback_footprint_witness :
    cartopy_local_size [7] [7] = (5, 2) ∧
    basemap_local_size 1 1 [7] [7] = (5 * 1, 2 * 1) ∧
    0 < (cartopy_local_size [7] [7]).1 ∧
    0 < (cartopy_local_size [7] [7]).2 ∧
    0 < (basemap_local_size 1 1 [7] [7]).1 ∧
    0 < (basemap_local_size 1 1 [7] [7]).2 :=
  single_point_fallback_footprint [7] [7] 1 1 (by simp) (by norm_num) (by norm_num)

/-- C9: in the `'local'` projection of both renderers (identical code at
lines 217–226 and 468–477), with positive footprint and figure ratio, the
aspect adjustment yields a footprint with `width/height` exactly equal to
the effective aspect (the figure's width/height ratio, times 1.2 with a
colorbar); the branch taken sets `width = height * aspect` when
`width/height < aspect` and otherwise `height = width / aspect`; and
neither dimension is ever decreased. -/
theorem aspect_adjust_matches_figure_ratio (fig_aspect w h : ℚ) (cb : Bool)
    (hfa : 0 < fig_aspect) (hw : 0 < w) (hh : 0 < h) :
    ∃ w' h', aspect_adjust (effective_aspect fig_aspect cb) w h = some (w', h') ∧
      w' / h' = effective_aspect fig_aspect cb ∧
      w ≤ w' ∧ h ≤ h' ∧
      (w / h < effective_aspect fig_aspect cb →
        (w', h') = (h * effective_aspect fig_aspect cb, h)) ∧
      (¬ w / h < effective_aspect fig_aspect cb →
        (w', h') = (w, w / effective_aspect fig_aspect cb)) := by
  have ha : 0 < effective_aspect fig_aspect cb := by
    rw [effective_aspect]
    split
    · positivity
    · exact hfa
  rw [aspect_adjust, if_neg hh.ne']
  by_cases hc : w / h < effective_aspect fig_aspect cb
  · rw [if_pos hc]
    refine ⟨h * effective_aspect fig_aspect cb, h, rfl, ?_, ?_, le_refl h,
      fun _ => rfl, fun hcon => absurd hc hcon⟩
    · rw [mul_comm, mul_div_assoc, div_self hh.ne', mul_one]
    · have := (div_lt_iff₀ hh).mp hc
      linarith
  · rw [if_neg hc]
    refine ⟨w, w / effective_aspect fig_aspect cb, rfl, ?_, le_refl w, ?_,
      fun hcon => absurd hcon hc, fun _ => rfl⟩
    · rw [div_div_eq_mul_div, mul_comm, mul_div_assoc, div_self hw.ne', mul_one]
    · have hc' := (le_div_iff₀ hh).mp (not_lt.mp hc)
      rw [le_div_iff₀ ha]
      linarith

/-- Witness for C9 at `fig_aspect = 4/3`, `w = 5`, `h = 2`, no
colorbar. -/
theorem aspect_adjust_matches_figure_ratio_witness :
    ∃ w' h', aspect_adjust (effective_aspect (4 / 3) false) 5 2 = some (w', h') ∧
      w' / h' = effective_aspect (4 / 3) false ∧
      5 ≤ w' ∧ 2 ≤ h' ∧
      ((5 : ℚ) / 2 < effective_aspect (4 / 3) false →
        (w', h') = (2 * effective_aspect (4 / 3) false, 2)) ∧
      (¬ (5 : ℚ) / 2 < effective_aspect (4 / 3) false →
        (w', h') = (5, 5 / effective_aspect (4 / 3) false)) :=
  aspect_adjust_matches_figure_ratio (4 / 3) 5 2 false
    (by norm_num) (by norm_num) (by norm_num)

/-! ## C6: the colorbar-visibility decision (lines 163–170 / 427–434) -/

/-- The Python-level shape of the `color` argument, as far as the
colorbar decision inspects it: `hasattr(color, "__len__")` and
`isinstance(color, (str, native_str))`. -/
inductive PyColor where
  | numlist (l : List ℚ)
  | strval (s : String)
  | scalar (x : ℚ)
deriving DecidableEq

/-- `hasattr(color, "__len__")`: lists and strings have a length, a bare
float does not. -/
def hasLenAttr : PyColor → Bool
  | .numlist _ => true
  | .strval _ => true
  | .scalar _ => false

/-- `isinstance(color, (str, native_str))`. -/
def isStrInstance : PyColor → Bool
  | .strval _ => true
  | _ => false

/-- Lines 163–170 / 427–434 (identical in both renderers): an explicit
`colorbar` argument wins; with `colorbar=None` the colorbar is shown iff
more than one point is plotted and `color` is a non-string sequence. -/
def show_colorbar (colorbar : Option Bool) (nlons : ℕ) (color : PyColor) : Bool :=
  match colorbar with
  | some b => b
  | none => decide (1 < nlons) && hasLenAttr color && !isStrInstance color

/-- C6: an explicit `colorbar=True/False` decides visibility directly;
with `colorbar=None` a colorbar is shown iff more than one point is
plotted and the color argument is a sequence that is not a string; in
particular `color=[1,2,3]` with 3 points and `colorbar=None` shows one,
the same color with 1 point does not, and `colorbar=False` with 3 points
does not. -/
theorem colorbar_visibility_decision :
    (∀ (b : Bool) (nlons : ℕ) (color : PyColor),
      show_colorbar (some b) nlons color = b) ∧
    (∀ (nlons : ℕ) (color : PyColor),
      (show_colorbar none nlons color = true ↔
        1 < nlons ∧ hasLenAttr color = true ∧ isStrInstance color = false)) ∧
    show_colorbar none 3 (.numlist [1, 2, 3]) = true ∧
    show_colorbar none 1 (.numlist [1, 2, 3]) = false ∧
    show_colorbar (some false) 3 (.numlist [1, 2, 3]) = false := by
  refine ⟨fun _ _ _ => rfl, ?_, rfl, rfl, rfl⟩
  intro nlons color
  rw [show_colorbar]
  simp [Bool.and_eq_true, and_assoc]

/-! ## C7: the intentional error conditions -/

/-- Lines 632–638: the `method` dispatch of `plot_map`; `Except.error`
carries the `ValueError` message. -/
def plot_map_method_check (method : String) : Except String Unit :=
  if method = "basemap" then Except.ok ()
  else if method = "cartopy" then Except.ok ()
  else Except.error ("The method argument must be either \x27basemap\x27 or " ++
    "\x27cartopy\x27, not \x27" ++ method ++ "\x27.")

/-- Lines 188–264: the `projection` dispatch of `plot_basemap`; only
`cyl`, `ortho` and `local` are accepted. -/
def basemap_projection_check (projection : String) : Except String Unit :=
  if projection = "cyl" then Except.ok ()
  else if projection = "ortho" then Except.ok ()
  else if projection = "local" then Except.ok ()
  else Except.error ("Projection \x27" ++ projection ++ "\x27 not supported.")

/-- The `projection` argument of `plot_cartopy`: a string, or a
projection class (`isinstance(projection, type)`). -/
inductive CartopyProj where
  | name (s : String)
  | cls
deriving DecidableEq

/-- Lines 442–503: the `projection` dispatch of `plot_cartopy`: the three
named modes and any projection class are accepted, anything else raises
`ValueError`. -/
def cartopy_projection_check : CartopyProj → Except String Unit
  | .name s =>
    if s = "cyl" then Except.ok ()
    else if s = "ortho" then Except.ok ()
    else if s = "local" then Except.ok ()
    else Except.error ("Projection \x27" ++ s ++ "\x27 not supported.")
  | .cls => Except.ok ()

/-- C7: `plot_map` raises a `ValueError` whose message contains the
offending name for every method other than `basemap`/`cartopy` and
accepts those two; `plot_basemap`/`plot_cartopy` raise a `ValueError`
naming the offending value for every projection string outside
`cyl`/`ortho`/`local`, `plot_cartopy` additionally accepting projection
classes — and these checks accept everything else, matching the three
`raise` statements being the only intentional errors of the module. -/
theorem intentional_error_conditions :
    (∀ m : String, (m = "basemap" ∨ m = "cartopy") →
      plot_map_method_check m = Except.ok ()) ∧
    (∀ m : String, m ≠ "basemap" → m ≠ "cartopy" →
      ∃ pre post, plot_map_method_check m = Except.error (pre ++ m ++ post)) ∧
    (∀ p : String, (p = "cyl" ∨ p = "ortho" ∨ p = "local") →
      basemap_projection_check p = Except.ok ()) ∧
    (∀ p : String, p ≠ "cyl" → p ≠ "ortho" → p ≠ "local" →
      ∃ pre post, basemap_projection_check p = Except.error (pre ++ p ++ post)) ∧
    (∀ p : String, (p = "cyl" ∨ p = "ortho" ∨ p = "local") →
      cartopy_projection_check (.name p) = Except.ok ()) ∧
    (∀ p : String, p ≠ "cyl" → p ≠ "ortho" → p ≠ "local" →
      ∃ pre post, cartopy_projection_check (.name p) = Except.error (pre ++ p ++ post)) ∧
    cartopy_projection_check .cls = Except.ok () := by
  refine ⟨?_, ?_, ?_, ?_, ?_, ?_, rfl⟩
  · rintro m (rfl | rfl) <;> rfl
  · intro m h1 h2
    rw [plot_map_method_check, if_neg h1, if_neg h2]
    exact ⟨_, _, rfl⟩
  · rintro p (rfl | rfl | rfl) <;> rfl
  · intro p h1 h2 h3
    rw [basemap_projection_check, if_neg h1, if_neg h2, if_neg h3]
    exact ⟨_, _, rfl⟩
  · rintro p (rfl | rfl | rfl) <;> rfl
  · intro p h1 h2 h3
    rw [cartopy_projection_check]
    rw [if_neg h1, if_neg h2, if_neg h3]
    exact ⟨_, _, rfl⟩

/-- Witness for C7 at `method = "unknown"` and
`projection = "robinson"`. -/
theorem intentional_error_conditions_witness :
    (∃ pre post, plot_map_method_check "unknown"
      = Except.error (pre ++ "unknown" ++ post)) ∧
    (∃ pre post, basemap_projection_check "robinson"
      = Except.error (pre ++ "robinson" ++ post)) ∧
    (∃ pre post, cartopy_projection_check (.name "robinson")
      = Except.error (pre ++ "robinson" ++ post)) ∧
    plot_map_method_check "basemap" = Except.ok () :=
  ⟨intentional_error_conditions.2.1 "unknown" (by decide) (by decide),
   intentional_error_conditions.2.2.2.1 "robinson" (by decide) (by decide) (by decide),
   intentional_error_conditions.2.2.2.2.2.1 "robinson" (by decide) (by decide) (by decide),
   intentional_error_conditions.1 "basemap" (Or.inl rfl)⟩

/-! ## C8 and C10: the color-axis (timestamp) normalization
(lines 146–157 / 410–421) -/

/-- A single color value: a timestamp (`datetime.datetime` /
`UTCDateTime`, represented by its POSIX seconds) or a plain number. -/
inductive ColorVal where
  | timestamp (t : ℚ)
  | num (x : ℚ)
deriving DecidableEq

/-- `isinstance(v, (datetime.datetime, UTCDateTime))`. -/
def isTimestampVal : ColorVal → Bool
  | .timestamp _ => true
  | .num _ => false

/-- Modelled from the spec: matplotlib\x27s `date2num` (an external
library function, not part of this repository) converts a timestamp "to
a numeric day-number axis"; for a timestamp `t` seconds after the Unix
epoch the day number is `t / 86400 + 719163` — a strictly increasing
affine map. -/
def date2num (t : ℚ) : ℚ := t / 86400 + 719163

/-- `date2num` applied to one element of the color list (the source only
ever applies it to timestamps; the `num` case totalizes the model). -/
def date2numVal : ColorVal → ℚ
  | .timestamp t => date2num t
  | .num x => x

/-- Lines 149–153 / 413–417 (identical in both renderers): if `color[0]`
is a timestamp, the whole list is mapped through `date2num` and the
`datetimeplot` flag is set; otherwise the list passes through unchanged.
The decision inspects only the first element.  (`[]` is totalized to
`([], false)`; the source would raise an `IndexError` on `color[0]`.) -/
def convert_color_axis : List ColorVal → List ColorVal × Bool
  | [] => ([], false)
  | c :: rest =>
    if isTimestampVal c then
      ((c :: rest).map fun v => ColorVal.num (date2numVal v), true)
    else
      (c :: rest, false)

/-- Python `min(color)` (lines 146 / 410): a left fold keeping the
accumulator on ties, replacing it when the new item compares `<`.
Mixed-type comparison raises `TypeError` in Python; `cvLt` totalizes it
to `false`. -/
def cvLt : ColorVal → ColorVal → Bool
  | .timestamp a, .timestamp b => decide (a < b)
  | .num a, .num b => decide (a < b)
  | _, _ => false

/-- Python `min(seq)` over the color list (`num 0` on `[]`, where Python
raises). -/
def pyMin : List ColorVal → ColorVal
  | [] => .num 0
  | x :: xs => xs.foldl (fun acc y => if cvLt y acc then y else acc) x

/-- Python `max(seq)` over the color list (`num 0` on `[]`, where Python
raises). -/
def pyMax : List ColorVal → ColorVal
  | [] => .num 0
  | x :: xs => xs.foldl (fun acc y => if cvLt acc y then y else acc) x

/-- The color-related state both renderers build in lines 146–157 /
410–421: `min_color`/`max_color` are computed from the raw sequence
BEFORE the timestamp conversion and feed `Normalize`; the (possibly
converted) sequence is what `scatter` receives. -/
structure ColorAxisState where
  vmin : ColorVal
  vmax : ColorVal
  scatter_colors : List ColorVal
  datetimeplot : Bool
deriving DecidableEq

/-- Lines 146–157 / 410–421 in order: `min_color = min(color)`,
`max_color = max(color)`, then the timestamp conversion. -/
def color_pipeline (color : List ColorVal) : ColorAxisState :=
  { vmin := pyMin color
    vmax := pyMax color
    scatter_colors := (convert_color_axis color).1
    datetimeplot := (convert_color_axis color).2 }

lemma foldl_cvMin_timestamp (xs : List ℚ) : ∀ x : ℚ,
    (xs.map ColorVal.timestamp).foldl
        (fun acc y => if cvLt y acc then y else acc) (ColorVal.timestamp x)
      = ColorVal.timestamp (xs.foldl min x) := by
  induction xs with
  | nil =>
    intro x
    rfl
  | cons y ys ih =>
    intro x
    simp only [List.map_cons, List.foldl_cons]
    have hmin : (if cvLt (ColorVal.timestamp y) (ColorVal.timestamp x)
        then ColorVal.timestamp y else ColorVal.timestamp x)
        = ColorVal.timestamp (min x y) := by
      by_cases hxy : y < x
      · rw [if_pos (by simpa [cvLt] using hxy), min_eq_right hxy.le]
      · rw [if_neg (by simpa [cvLt] using hxy), min_eq_left (not_lt.mp hxy)]
    rw [hmin]
    exact ih (min x y)

lemma foldl_cvMax_timestamp (xs : List ℚ) : ∀ x : ℚ,
    (xs.map ColorVal.timestamp).foldl
        (fun acc y => if cvLt acc y then y else acc) (ColorVal.timestamp x)
      = ColorVal.timestamp (xs.foldl max x) := by
  induction xs with
  | nil =>
    intro x
    rfl
  | cons y ys ih =>
    intro x
    simp only [List.map_cons, List.foldl_cons]
    have hmax : (if cvLt (ColorVal.timestamp x) (ColorVal.timestamp y)
        then ColorVal.timestamp y else ColorVal.timestamp x)
        = ColorVal.timestamp (max x y) := by
      by_cases hxy : x < y
      · rw [if_pos (by simpa [cvLt] using hxy), max_eq_right hxy.le]
      · rw [if_neg (by simpa [cvLt] using hxy), max_eq_left (not_lt.mp hxy)]
    rw [hmax]
    exact ih (max x y)

lemma pyMin_map_timestamp (ts : List ℚ) (h : ts ≠ []) :
    pyMin (ts.map ColorVal.timestamp) = ColorVal.timestamp (listMin ts) := by
  match ts with
  | t :: ts' =>
    rw [listMin]
    exact foldl_cvMin_timestamp ts' t

lemma pyMax_map_timestamp (ts : List ℚ) (h : ts ≠ []) :
    pyMax (ts.map ColorVal.timestamp) = ColorVal.timestamp (listMax ts) := by
  match ts with
  | t :: ts' =>
    rw [listMax]
    exact foldl_cvMax_timestamp ts' t

lemma convert_color_axis_timestamps (ts : List ℚ) (h : ts ≠ []) :
    convert_color_axis (ts.map ColorVal.timestamp)
      = (ts.map fun t => ColorVal.num (date2num t), true) := by
  match ts with
  | t :: ts' =>
    simp only [List.map_cons, convert_color_axis, isTimestampVal, if_pos]
    rw [List.map_map]
    rfl

/-- C8: when the first color value is a timestamp, the whole sequence is
converted through `date2num`, a strictly increasing map — so the numeric
values are strictly monotonic exactly when the timestamps are — and the
`datetimeplot` flag is set; when the first element is not a timestamp
the sequence passes through unchanged (whatever the rest contains), flag
unset. -/
theorem timestamp_color_conversion :
    (∀ ts : List ℚ, ts ≠ [] →
      convert_color_axis (ts.map ColorVal.timestamp)
        = (ts.map fun t => ColorVal.num (date2num t), true)) ∧
    (∀ a b : ℚ, date2num a < date2num b ↔ a < b) ∧
    (∀ ts : List ℚ,
      List.Pairwise (· < ·) (ts.map date2num) ↔ List.Pairwise (· < ·) ts) ∧
    (∀ (x : ℚ) (rest : List ColorVal),
      convert_color_axis (ColorVal.num x :: rest)
        = (ColorVal.num x :: rest, false)) := by
  have hmono : ∀ a b : ℚ, date2num a < date2num b ↔ a < b := by
    intro a b
    rw [date2num, date2num]
    constructor <;> intro h <;> linarith
  refine ⟨convert_color_axis_timestamps, hmono, ?_, ?_⟩
  · intro ts
    rw [List.pairwise_map]
    exact List.Pairwise.iff hmono
  · intro x rest
    rw [convert_color_axis, if_neg]
    simp [isTimestampVal]

/-- Witness for C8 at the two chronologically ordered timestamps `0` and
`86400` (one day apart). -/
theorem timestamp_color_conversion_witness :
    convert_color_axis ([0, 86400].map ColorVal.timestamp)
      = ([0, 86400].map fun t => ColorVal.num (date2num t), true) :=
  timestamp_color_conversion.1 [0, 86400] (by simp)

/-- C10: for a (nonempty) sequence of timestamp color values, the
normalization bounds `min_color`/`max_color` are the raw timestamps —
the extremes of the input, still of timestamp kind — while the scatter
call receives the `date2num`-converted numeric values: the bounds are
computed before the conversion and never recomputed from the converted
sequence. -/
theorem normalize_bounds_from_raw_colors (ts : List ℚ) (h : ts ≠ []) :
    (color_pipeline (ts.map ColorVal.timestamp)).vmin
      = ColorVal.timestamp (listMin ts) ∧
    (color_pipeline (ts.map ColorVal.timestamp)).vmax
      = ColorVal.timestamp (listMax ts) ∧
    isTimestampVal (color_pipeline (ts.map ColorVal.timestamp)).vmin = true ∧
    isTimestampVal (color_pipeline (ts.map ColorVal.timestamp)).vmax = true ∧
    (color_pipeline (ts.map ColorVal.timestamp)).scatter_colors
      = ts.map (fun t => ColorVal.num (date2num t)) ∧
    (∀ v ∈ (color_pipeline (ts.map ColorVal.timestamp)).scatter_colors,
      isTimestampVal v = false) ∧
    (color_pipeline (ts.map ColorVal.timestamp)).datetimeplot = true := by
  have hmin := pyMin_map_timestamp ts h
  have hmax := pyMax_map_timestamp ts h
  have hconv := convert_color_axis_timestamps ts h
  refine ⟨hmin, hmax, ?_, ?_, ?_, ?_, ?_⟩
  · simp only [color_pipeline, hmin]
    rfl
  · simp only [color_pipeline, hmax]
    rfl
  · simp only [color_pipeline, hconv]
  · intro v hv
    simp only [color_pipeline, hconv] at hv
    rw [List.mem_map] at hv
    obtain ⟨t, _, rfl⟩ := hv
    rfl
  · simp only [color_pipeline, hconv]

/-- Witness for C10 at the timestamps `[86400, 0]`. -/
theorem normalize_bounds_from_raw_colors_witness :
    (color_pipeline ([86400, 0].map ColorVal.timestamp)).vmin
      = ColorVal.timestamp (listMin [86400, 0]) ∧
    (color_pipeline ([86400, 0].map ColorVal.timestamp)).vmax
      = ColorVal.timestamp (listMax [86400, 0]) ∧
    isTimestampVal (color_pipeline ([86400, 0].map ColorVal.timestamp)).vmin = true ∧
    isTimestampVal (color_pipeline ([86400, 0].map ColorVal.timestamp)).vmax = true ∧
    (color_pipeline ([86400, 0].map ColorVal.timestamp)).scatter_colors
      = [86400, 0].map (fun t => ColorVal.num (date2num t)) ∧
    (∀ v ∈ (color_pipeline ([86400, 0].map ColorVal.timestamp)).scatter_colors,
      isTimestampVal v = false) ∧
    (color_pipeline ([86400, 0].map ColorVal.timestamp)).datetimeplot = true :=
  normalize_bounds_from_raw_colors [86400, 0] (by simp)

end ObspyMaps
